/-
Verification development for the Authcord redirect gateway.

The source is a Node/Express application (src/app.js) in two variants
separated in the file: a richer variant (membership-aware trust tiers,
linkbust transforms) and a simplified variant.  This file gives a shallow
embedding of the data model and the operations the claims concern:

  * the three-tier trust evaluator of GET /l/:code (both variants),
  * the shortlink resolver (WHERE code ORDER BY id DESC LIMIT 1),
  * the linkbust normalization of POST /l and the transform loop of
    GET /l/:code (URL parsing abstracted as a parameter),
  * the POST /l request validation,
  * the session-issuance phase of POST /login (eviction at 5 sessions,
    saved_sessions mirror, cookie issuance).

JavaScript strings are modelled as Lean String / List Char; SQL tables as
lists of row structures in insertion order; randomness as explicit oracle
functions supplying the successive outputs of rs(5) and of
Math.round(Math.random()).
-/
import Mathlib

set_option maxRecDepth 4000

/-! ## JavaScript string helpers -/

/-- Embeds JavaScript `s.toUpperCase()` (ASCII range, which covers every
string the code compares after uppercasing). -/
def jsUpper (s : String) : String :=
  String.mk (s.data.map Char.toUpper)

/-- Embeds JavaScript `array.join("|")` as used on the normalized linkbust
list in POST /l. -/
def joinPipe : List String → String
  | [] => ""
  | [s] => s
  | s :: rest => s ++ "|" ++ joinPipe rest

/-- Character-level embedding of JavaScript `String.split("|")` (single
character separator), used on the stored linkbust column in GET /l/:code. -/
def splitPipeL : List Char → List (List Char)
  | [] => [[]]
  | c :: cs =>
    if c = '|' then [] :: splitPipeL cs
    else
      match splitPipeL cs with
      | [] => [[c]]
      | p :: ps => (c :: p) :: ps

/-- String form of `splitPipeL`. -/
def splitPipe (s : String) : List String :=
  (splitPipeL s.data).map String.mk

/-- The literal placeholder pattern `%RAN%` of the RANDOM linkbust case. -/
def ranPat : List Char := ['%', 'R', 'A', 'N', '%']

/-- Character-level embedding of `destination.split("%RAN%")` from the
RANDOM linkbust case (non-overlapping leftmost matches, as in JS).  The
fuel only serves structural termination: every step consumes at least one
character, so `length + 1` fuel is never exhausted and the `0` branch is
unreachable from `splitRanL`. -/
def splitRanAux : Nat → List Char → List (List Char)
  | 0, l => [l]
  | _ + 1, [] => [[]]
  | fuel + 1, c :: cs =>
    if ranPat.isPrefixOf (c :: cs) then [] :: splitRanAux fuel (cs.drop 4)
    else
      match splitRanAux fuel cs with
      | [] => [[c]]
      | p :: ps => (c :: p) :: ps

/-- JavaScript `l.split("%RAN%")` on a character list. -/
def splitRanL (l : List Char) : List (List Char) :=
  splitRanAux (l.length + 1) l

/-- Character-level embedding of JavaScript `s.replace("%RAN%", rep)`:
only the first (leftmost) occurrence is replaced. -/
def replaceFirstRanL (rep : List Char) : List Char → List Char
  | [] => []
  | c :: cs =>
    if ranPat.isPrefixOf (c :: cs) then rep ++ cs.drop 4
    else c :: replaceFirstRanL rep cs

/-- The loop body of the RANDOM linkbust case, embedded faithfully:

  for (let i = 0; i < shortlink.destination.split("%RAN%").length; i++) {
    const ran = rs(5)
    shortlink.destination = shortlink.destination.replace("%RAN%", ran)
  }

Note that the bound is re-evaluated against the mutated destination each
iteration.  `rng i` supplies the rs(5) draw of iteration i.  Fuel bounds
the iteration count; since rs(5) outputs are 5 alphanumeric characters
(they contain no percent sign and so never create a new occurrence of
the pattern), the loop performs at most `length + 2` tests, so the fuel
chosen in `randomTransform` is never exhausted on the executions the
source can perform. -/
def ranLoopAux (rng : Nat → String) : Nat → Nat → List Char → List Char
  | 0, _, s => s
  | fuel + 1, i, s =>
    if i < (splitRanL s).length then
      ranLoopAux rng fuel (i + 1) (replaceFirstRanL (rng i).data s)
    else s

/-- The RANDOM linkbust transform of GET /l/:code. -/
def randomTransform (rng : Nat → String) (dest : String) : String :=
  String.mk (ranLoopAux rng (dest.data.length + 2) 0 dest.data)

/-- The CAPITALS linkbust transform: per-character coin flips, `coins i`
embedding the `Math.round(Math.random())` draw for position i. -/
def capsTransform (coins : Nat → Bool) (dest : String) : String :=
  String.mk (dest.data.enum.map (fun p => if coins p.1 then p.2.toUpper else p.2.toLower))

/-! ## Generic first-of-ordered-scan fold

`ORDER BY key DESC/ASC LIMIT 1` on a table with distinct keys is the
element with the maximal/minimal key; the fold keeps the first such
element of the list. -/

/-- First element with maximal key (embeds ORDER BY key DESC, first row). -/
def pickMaxBy {α β : Type} [LinearOrder β] (key : α → β) (l : List α) : Option α :=
  l.foldl
    (fun acc r =>
      match acc with
      | none => some r
      | some a => if key a < key r then some r else some a)
    none

theorem pickMaxBy_go {α β : Type} [LinearOrder β] (key : α → β) :
    ∀ (l : List α) (a : α),
      ∃ b, l.foldl
        (fun acc r =>
          match acc with
          | none => some r
          | some a => if key a < key r then some r else some a)
        (some a) = some b ∧ (b = a ∨ b ∈ l) ∧ key a ≤ key b ∧ ∀ x ∈ l, key x ≤ key b := by
  intro l
  induction l with
  | nil =>
    intro a
    exact ⟨a, rfl, Or.inl rfl, le_refl _, by simp⟩
  | cons r t ih =>
    intro a
    by_cases h : key a < key r
    · obtain ⟨b, hb, hmem, hle, hall⟩ := ih r
      refine ⟨b, ?_, ?_, le_trans (le_of_lt h) hle, ?_⟩
      · simpa [h] using hb
      · rcases hmem with h1 | h1
        · exact Or.inr (by simp [h1])
        · exact Or.inr (List.mem_cons_of_mem _ h1)
      · intro x hx
        rcases List.mem_cons.mp hx with h1 | h1
        · exact h1 ▸ hle
        · exact hall x h1
    · obtain ⟨b, hb, hmem, hle, hall⟩ := ih a
      refine ⟨b, ?_, ?_, hle, ?_⟩
      · simpa [h] using hb
      · rcases hmem with h1 | h1
        · exact Or.inl h1
        · exact Or.inr (List.mem_cons_of_mem _ h1)
      · intro x hx
        rcases List.mem_cons.mp hx with h1 | h1
        · exact h1 ▸ le_trans (le_of_not_lt h) hle
        · exact hall x h1

theorem pickMaxBy_eq_none_iff {α β : Type} [LinearOrder β] (key : α → β) (l : List α) :
    pickMaxBy key l = none ↔ l = [] := by
  cases l with
  | nil => simp [pickMaxBy]
  | cons r t =>
    simp only [pickMaxBy, List.foldl_cons]
    obtain ⟨b, hb, _, _, _⟩ := pickMaxBy_go key t r
    simp [hb]

theorem pickMaxBy_spec {α β : Type} [LinearOrder β] (key : α → β) (l : List α) (b : α)
    (h : pickMaxBy key l = some b) : b ∈ l ∧ ∀ x ∈ l, key x ≤ key b := by
  cases l with
  | nil => simp [pickMaxBy] at h
  | cons r t =>
    simp only [pickMaxBy, List.foldl_cons] at h
    obtain ⟨b', hb, hmem, hle, hall⟩ := pickMaxBy_go key t r
    rw [hb] at h
    cases h
    refine ⟨?_, ?_⟩
    · rcases hmem with h1 | h1
      · simp [h1]
      · exact List.mem_cons_of_mem _ h1
    · intro x hx
      rcases List.mem_cons.mp hx with h1 | h1
      · exact h1 ▸ hle
      · exact hall x h1

/-! ## Binary string order

`ORDER BY id ASC` on a varchar column under the schema's utf8mb4_bin
collation compares byte strings; `lexLt` is that strict order on the
character lists (code points compared as naturals). -/

/-- Strict lexicographic order on character lists by code point. -/
def lexLt : List Char → List Char → Bool
  | [], [] => false
  | [], _ :: _ => true
  | _ :: _, [] => false
  | a :: as, b :: bs =>
    if a.toNat < b.toNat then true
    else if b.toNat < a.toNat then false
    else lexLt as bs

theorem lexLt_irrefl : ∀ l : List Char, lexLt l l = false := by
  intro l
  induction l with
  | nil => rfl
  | cons a as ih => simp [lexLt, ih]

theorem lexLt_asymm : ∀ l₁ l₂ : List Char, lexLt l₁ l₂ = true → lexLt l₂ l₁ = false := by
  intro l₁
  induction l₁ with
  | nil =>
    intro l₂ h
    cases l₂ with
    | nil => simp [lexLt] at h
    | cons b bs => rfl
  | cons a as ih =>
    intro l₂ h
    cases l₂ with
    | nil => simp [lexLt] at h
    | cons b bs =>
      simp only [lexLt] at h ⊢
      by_cases hab : a.toNat < b.toNat
      · have hba : ¬ b.toNat < a.toNat := by omega
        simp [hab, hba]
      · by_cases hba : b.toNat < a.toNat
        · simp [hab, hba] at h
        · simp only [hab, hba, if_false] at h
          simp [hab, hba, ih bs h]

theorem lexLt_not_trans :
    ∀ l₁ l₂ l₃ : List Char,
      lexLt l₁ l₂ = false → lexLt l₂ l₃ = false → lexLt l₁ l₃ = false := by
  intro l₁
  induction l₁ with
  | nil =>
    intro l₂ l₃ h1 h2
    cases l₂ with
    | nil =>
      cases l₃ with
      | nil => rfl
      | cons c cs => simp [lexLt] at h2
    | cons b bs => simp [lexLt] at h1
  | cons a as ih =>
    intro l₂ l₃ h1 h2
    cases l₃ with
    | nil => rfl
    | cons c cs =>
      cases l₂ with
      | nil => simp [lexLt] at h2
      | cons b bs =>
        simp only [lexLt] at h1 h2 ⊢
        by_cases hab : a.toNat < b.toNat
        · simp [hab] at h1
        · by_cases hbc : b.toNat < c.toNat
          · simp [hbc] at h2
          · have hac : ¬ a.toNat < c.toNat := by omega
            by_cases hca : c.toNat < a.toNat
            · simp [hac, hca]
            · have hba : ¬ b.toNat < a.toNat := by omega
              have hcb : ¬ c.toNat < b.toNat := by omega
              simp only [hab, hba, if_false, ite_false] at h1
              simp only [hbc, hcb, if_false, ite_false] at h2
              simp [hac, hca, ih bs cs h1 h2]

/-! ## Data model

Tables are lists of rows in insertion order; `created_at` embeds the
DEFAULT CURRENT_TIMESTAMP column of the schema. -/

/-- Row of the `users` table. -/
structure UserRow where
  id : Nat
  email : String
  member : Bool
  password : String
deriving DecidableEq, Repr

/-- Row of the `sessions` table (the identifier column: `sessions.id` in
the richer variant's schema, `session_id` in the simplified one). -/
structure SessionRow where
  id : String
  user_id : Nat
  user_agent : String
  created_at : Nat
deriving DecidableEq, Repr

/-- First session row with the minimal (binary-collation) id: embeds the
`orderBy("id", "ASC")` scan and taking element [0] in POST /login. -/
def pickMinSession (l : List SessionRow) : Option SessionRow :=
  l.foldl
    (fun acc r =>
      match acc with
      | none => some r
      | some a => if lexLt r.id.data a.id.data then some r else some a)
    none

theorem pickMinSession_go :
    ∀ (l : List SessionRow) (a : SessionRow),
      ∃ b, l.foldl
        (fun acc r =>
          match acc with
          | none => some r
          | some a => if lexLt r.id.data a.id.data then some r else some a)
        (some a) = some b ∧ (b = a ∨ b ∈ l) ∧ lexLt a.id.data b.id.data = false ∧
          ∀ x ∈ l, lexLt x.id.data b.id.data = false := by
  intro l
  induction l with
  | nil =>
    intro a
    exact ⟨a, rfl, Or.inl rfl, lexLt_irrefl _, by simp⟩
  | cons r t ih =>
    intro a
    by_cases h : lexLt r.id.data a.id.data = true
    · obtain ⟨b, hb, hmem, hle, hall⟩ := ih r
      refine ⟨b, by simpa [h] using hb, ?_, ?_, ?_⟩
      · rcases hmem with h1 | h1
        · exact Or.inr (by simp [h1])
        · exact Or.inr (List.mem_cons_of_mem _ h1)
      · by_contra hcon
        have hab : lexLt a.id.data b.id.data = true := by
          cases h2 : lexLt a.id.data b.id.data with
          | false => exact absurd h2 hcon
          | true => rfl
        have h3 : lexLt b.id.data a.id.data = false := lexLt_asymm _ _ hab
        have h4 : lexLt r.id.data a.id.data = false := lexLt_not_trans _ _ _ hle h3
        rw [h] at h4
        exact Bool.noConfusion h4
      · intro x hx
        rcases List.mem_cons.mp hx with h1 | h1
        · exact h1 ▸ hle
        · exact hall x h1
    · have h' : lexLt r.id.data a.id.data = false := by
        cases h2 : lexLt r.id.data a.id.data with
        | false => rfl
        | true => exact absurd h2 h
      obtain ⟨b, hb, hmem, hle, hall⟩ := ih a
      refine ⟨b, by simpa [h'] using hb, ?_, hle, ?_⟩
      · rcases hmem with h1 | h1
        · exact Or.inl h1
        · exact Or.inr (List.mem_cons_of_mem _ h1)
      · intro x hx
        rcases List.mem_cons.mp hx with h1 | h1
        · exact h1 ▸ lexLt_not_trans _ _ _ h' hle
        · exact hall x h1

theorem pickMinSession_eq_none_iff (l : List SessionRow) :
    pickMinSession l = none ↔ l = [] := by
  cases l with
  | nil => simp [pickMinSession]
  | cons r t =>
    simp only [pickMinSession, List.foldl_cons]
    obtain ⟨b, hb, _, _, _⟩ := pickMinSession_go t r
    simp [hb]

theorem pickMinSession_spec (l : List SessionRow) (b : SessionRow)
    (h : pickMinSession l = some b) :
    b ∈ l ∧ ∀ x ∈ l, lexLt x.id.data b.id.data = false := by
  cases l with
  | nil => simp [pickMinSession] at h
  | cons r t =>
    simp only [pickMinSession, List.foldl_cons] at h
    obtain ⟨b', hb, hmem, hle, hall⟩ := pickMinSession_go t r
    rw [hb] at h
    cases h
    refine ⟨?_, ?_⟩
    · rcases hmem with h1 | h1
      · simp [h1]
      · exact List.mem_cons_of_mem _ h1
    · intro x hx
      rcases List.mem_cons.mp hx with h1 | h1
      · exact h1 ▸ hle
      · exact hall x h1

/-- Row of the append-only `saved_sessions` audit table. -/
structure SavedSessionRow where
  id : String
  user_id : Nat
  user_agent : String
  ip_address : String
deriving DecidableEq, Repr

/-- Row of the `ips` table. -/
structure IpRow where
  user_id : Nat
  ip_address : String
deriving DecidableEq, Repr

/-- Row of the `shortlinks` table. -/
structure ShortlinkRow where
  id : Nat
  code : String
  method : String
  data : Option String
  destination : String
  linkbust : Option String
deriving DecidableEq, Repr

/-- The database state consulted by the trust evaluator and resolver. -/
structure Db where
  users : List UserRow
  sessions : List SessionRow
  ips : List IpRow
  shortlinks : List ShortlinkRow
deriving DecidableEq, Repr

/-! ## Trust evaluator (GET /l/:code middleware) -/

/-- The `req.method_value` field: a user id for USER, the cookie or IP
string for SESSION/IP. -/
inductive MethodValue
  | num (n : Nat)
  | str (s : String)
deriving DecidableEq, Repr

/-- The fields the middleware sets on the request before calling next():
method name, method value and (richer variant only) `req.user_id`. -/
structure AuthInfo where
  methodName : String
  value : MethodValue
  userId : Option Nat
deriving DecidableEq, Repr

/-- Outcome of the trust middleware: `decision = some info` means next()
was called with those request fields, `none` means the 401 unauthorized
render; `cleared` records whether res.clearCookie("sessionId") ran. -/
structure TrustResult where
  decision : Option AuthInfo
  cleared : Bool
deriving DecidableEq, Repr

/-- Request context entering the middleware: the express-session user
object, the `sessionId` cookie, and `req.ip` (forwarded header or peer
address; `none` when neither is present). -/
structure ReqCtx where
  sessionUser : Option UserRow
  cookie : Option String
  ip : Option String
deriving DecidableEq, Repr

/-- Richer variant, cookie tier lookup: the first row of
`users INNER JOIN sessions ON sessions.user_id = users.id
 WHERE sessions.id = sid`, projected to (users.id, users.member). -/
def joinedUserSession (db : Db) (sid : String) : Option (Nat × Bool) :=
  db.sessions.findSome? (fun s =>
    if s.id == sid then
      (db.users.find? (fun u => u.id == s.user_id)).map (fun u => (u.id, u.member))
    else none)

/-- Richer variant, IP tier lookup: the first row of
`users INNER JOIN ips ON ips.user_id = users.id
 WHERE ips.ip_address = a`, projected to (users.id, users.member). -/
def joinedUserIp (db : Db) (a : String) : Option (Nat × Bool) :=
  db.ips.findSome? (fun r =>
    if r.ip_address == a then
      (db.users.find? (fun u => u.id == r.user_id)).map (fun u => (u.id, u.member))
    else none)

/-- Richer variant, IP tier (`const ip = req.ip || null`; a NULL lookup
matches no row, and a match additionally requires the member flag). -/
def ipTierRich (db : Db) (ip : Option String) : Option AuthInfo :=
  match ip with
  | some a =>
    match joinedUserIp db a with
    | some (uid, true) => some ⟨"IP", MethodValue.str a, some uid⟩
    | _ => none
  | none => none

/-- Richer variant, cookie tier followed by IP tier (the code reached when
tier 1 does not return): authorize SESSION on a joined row with the member
flag; clear the cookie when no joined row exists; fall through otherwise. -/
def cookieIpTiersRich (db : Db) (cookie ip : Option String) : TrustResult :=
  match cookie with
  | some sid =>
    match joinedUserSession db sid with
    | some (uid, true) => ⟨some ⟨"SESSION", MethodValue.str sid, some uid⟩, false⟩
    | some (_, false) => ⟨ipTierRich db ip, false⟩
    | none => ⟨ipTierRich db ip, true⟩
  | none => ⟨ipTierRich db ip, false⟩

/-- Richer variant of the GET /l/:code trust middleware (src/app.js lines
77-121): an active session user authorizes as USER when the member flag is
set and otherwise falls through to the cookie and IP tiers. -/
def trustRich (db : Db) (ctx : ReqCtx) : TrustResult :=
  match ctx.sessionUser with
  | some u =>
    if u.member then ⟨some ⟨"USER", MethodValue.num u.id, some u.id⟩, false⟩
    else cookieIpTiersRich db ctx.cookie ctx.ip
  | none => cookieIpTiersRich db ctx.cookie ctx.ip

/-- Simplified variant, cookie tier lookup:
`sessions WHERE session_id = sid, first`. -/
def sessionLookupSimple (db : Db) (sid : String) : Option SessionRow :=
  db.sessions.find? (fun s => s.id == sid)

/-- Simplified variant, IP tier: `ips WHERE ip_address = req.ip, first`
(no membership requirement, no join). -/
def ipTierSimple (db : Db) (ip : Option String) : Option AuthInfo :=
  match ip with
  | some a =>
    match db.ips.find? (fun r => r.ip_address == a) with
    | some _ => some ⟨"IP", MethodValue.str a, none⟩
    | none => none
  | none => none

/-- Simplified variant, cookie tier followed by IP tier. -/
def cookieIpTiersSimple (db : Db) (cookie ip : Option String) : TrustResult :=
  match cookie with
  | some sid =>
    match sessionLookupSimple db sid with
    | some _ => ⟨some ⟨"SESSION", MethodValue.str sid, none⟩, false⟩
    | none => ⟨ipTierSimple db ip, true⟩
  | none => ⟨ipTierSimple db ip, false⟩

/-- Simplified variant of the GET /l/:code trust middleware (src/app.js
lines 523-552): an active session user always authorizes as USER. -/
def trustSimple (db : Db) (ctx : ReqCtx) : TrustResult :=
  match ctx.sessionUser with
  | some u => ⟨some ⟨"USER", MethodValue.num u.id, none⟩, false⟩
  | none => cookieIpTiersSimple db ctx.cookie ctx.ip

/-! ## Shortlink resolver -/

/-- GET /l/:code resolution:
`shortlinks WHERE code = code ORDER BY id DESC, first` — the first row
with the maximal id among those matching the code. -/
def resolveShortlink (db : Db) (code : String) : Option ShortlinkRow :=
  pickMaxBy (fun r => r.id) (db.shortlinks.filter (fun r => r.code == code))

/-! ## POST /l creation -/

/-- The `data` field of a POST /l body: a flat key-value object, or a
truthy non-object value (string/number), embedding the
`typeof req.body.data !== "object"` check.  JSON serialization of the
stored payload is abstracted (the row keeps the value itself). -/
inductive DataVal
  | obj (kvs : List (String × String))
  | nonObj
deriving DecidableEq, Repr

/-- The `linkbust` field of a POST /l body: an array of technique names,
or a truthy non-object value (`typeof req.body.linkbust !== "object"`). -/
inductive LinkbustVal
  | arr (xs : List String)
  | nonArr
deriving DecidableEq, Repr

/-- A POST /l request body; `none` embeds an absent (falsy) field. -/
structure CreateBody where
  code : Option String
  method : Option String
  destination : Option String
  data : Option DataVal
  linkbust : Option LinkbustVal
deriving DecidableEq, Repr

/-- JavaScript truthiness of an optional string field (absent or empty is
falsy). -/
def strTruthy : Option String → Bool
  | none => false
  | some s => !(s == "")

/-- The linkbust normalization of POST /l (src/app.js lines 254-266):
uppercase each submitted name, then push RANDOM, CACHEBUST, CAPITALS in
that fixed order when present. -/
def normalizeLinkbust (lbs : List String) : List String :=
  let up := lbs.map jsUpper
  (if up.contains "RANDOM" then ["RANDOM"] else []) ++
    (if up.contains "CACHEBUST" then ["CACHEBUST"] else []) ++
      (if up.contains "CAPITALS" then ["CAPITALS"] else [])

/-- Row assembled by the POST /l insert. -/
structure ShortlinkInsert where
  code : String
  method : String
  data : Option DataVal
  destination : String
  linkbust : Option String
deriving DecidableEq, Repr

/-- Outcome of POST /l: a 400 with the specific error message, or the
insert dispatched together with the JSON response carrying the code.
A `badRequest` outcome inserts no row. -/
inductive CreateResult
  | badRequest (msg : String)
  | created (row : ShortlinkInsert) (respCode : String)
deriving DecidableEq, Repr

/-- The linkbust validation and the insert at the tail of POST /l
(src/app.js lines 246-289). -/
def finishCreate (code m0 : String) (b : CreateBody) : CreateResult :=
  match b.linkbust with
  | some LinkbustVal.nonArr =>
    CreateResult.badRequest "The `linkbust` parameter must be an array."
  | some (LinkbustVal.arr xs) =>
    CreateResult.created
      ⟨code, jsUpper m0, b.data, b.destination.getD "", some (joinPipe (normalizeLinkbust xs))⟩
      code
  | none =>
    CreateResult.created
      ⟨code, jsUpper m0, b.data, b.destination.getD "", none⟩
      code

/-- POST /l (src/app.js lines 197-290).  `gen` is the rs(5) code generated
when the body carries no code.  Note the data prohibition for GET compares
`req.body.method === "GET"` exactly, while the method validation uppercases
first. -/
def createShortlink (gen : String) (b : CreateBody) : CreateResult :=
  let code := match b.code with
    | some c => if c == "" then gen else c
    | none => gen
  match b.method with
  | none => CreateResult.badRequest "Missing `method` parameter."
  | some m0 =>
    if m0 == "" then CreateResult.badRequest "Missing `method` parameter."
    else if !(jsUpper m0 == "GET" || jsUpper m0 == "POST") then
      CreateResult.badRequest "Invalid `method` parameter. The method must either be POST or GET."
    else if !(strTruthy b.destination) then
      CreateResult.badRequest "Missing `destination` parameter."
    else
      match b.data with
      | some d =>
        if m0 == "GET" then
          CreateResult.badRequest "A method of `GET` cannot contain form-data."
        else
          match d with
          | DataVal.nonObj =>
            CreateResult.badRequest "The `data` parameter must be a key-value object."
          | DataVal.obj _ => finishCreate code m0 b
      | none => finishCreate code m0 b

/-! ## Linkbust application at resolution

The WHATWG URL library (`new URL`, `searchParams.append`, `href`) is an
external collaborator: it is abstracted as a parse function (returning
`none` exactly when the constructor would throw) and an append-parameter
serializer. -/

/-- Techniques the resolution handler iterates over: the stored linkbust
column split on "|" when truthy (`if (shortlink.linkbust)`), nothing
otherwise. -/
def resolutionTechs (linkbust : Option String) : List String :=
  match linkbust with
  | none => []
  | some s => if s == "" then [] else splitPipe s

section UrlModel

variable {UrlT : Type} (parse : String → Option UrlT)
variable (appendParam : UrlT → String → String → String)

/-- One iteration of the linkbust switch (src/app.js lines 149-173).
`rng k` supplies the successive rs(5) draws of this technique, `coins`
the Math.round(Math.random()) draws of a CAPITALS pass.  An unmatched
technique name leaves the destination unchanged; a CACHEBUST on an
unparseable destination is the `new URL` throw. -/
def applyTech (rng : Nat → String) (coins : Nat → Bool) (tech : String) (dest : String) :
    Except Unit String :=
  if tech == "CAPITALS" then Except.ok (capsTransform coins dest)
  else if tech == "CACHEBUST" then
    match parse dest with
    | none => Except.error ()
    | some u => Except.ok (appendParam u (rng 0) (rng 1))
  else if tech == "RANDOM" then Except.ok (randomTransform rng dest)
  else Except.ok dest

/-- The linkbust loop of GET /l/:code: techniques applied left to right,
each on the output of the previous, a throw aborting the handler.  `j`
indexes the technique so that each gets its own stream of draws. -/
def applyTechs (rng : Nat → Nat → String) (coins : Nat → Nat → Bool) :
    List String → Nat → String → Except Unit String
  | [], _, dest => Except.ok dest
  | t :: ts, j, dest =>
    match applyTech parse appendParam (rng j) (coins j) t dest with
    | Except.error e => Except.error e
    | Except.ok d => applyTechs rng coins ts (j + 1) d

end UrlModel

/-! ## GET /l/:code response delivery and the audit-write outcomes

The two variants relate the audit inserts to the response path
differently: the richer variant dispatches
`knex("outbound").insert(...).then(...)` and
`knex("dynamic_urls").insert(...).then(...)` without awaiting either,
while the simplified variant runs `await knex("outbound").insert(...)`
before resolving.  Each insert's outcome is threaded as an
`Except Unit Unit` parameter (`Except.error` embeds a rejected insert);
an awaited rejection aborts the handler, exactly as the `new URL` throw
is treated in the linkbust pipeline. -/

/-- The user-facing answer of the GET /l/:code delivery handler: a
redirect for GET-method links, the rendered form-submission view for
POST-method links (JSON parsing of the stored payload abstracted — the
view receives the stored field), or the not-found view. -/
inductive ResolutionResponse
  | redirect (url : String)
  | renderPost (data : Option String) (destination : String)
  | notFound
deriving DecidableEq, Repr

set_option linter.unusedVariables false in
/-- Richer variant of the GET /l/:code delivery handler (src/app.js lines
123-194).  The outbound insert (lines 126-136) and the dynamic_urls
insert (lines 177-184) are dispatched with `.then(...)` and never
awaited, so their outcomes `outboundResult` and `dynamicResult` gate no
step between resolution and the response (hence the deliberately unused
parameters). -/
def resolveHandlerRich {UrlT : Type} (parse : String → Option UrlT)
    (appendParam : UrlT → String → String → String)
    (rng : Nat → Nat → String) (coins : Nat → Nat → Bool)
    (db : Db) (code : String)
    (outboundResult dynamicResult : Except Unit Unit) :
    Except Unit ResolutionResponse :=
  match resolveShortlink db code with
  | none => Except.ok ResolutionResponse.notFound
  | some row =>
    match applyTechs parse appendParam rng coins (resolutionTechs row.linkbust) 0
        row.destination with
    | Except.error e => Except.error e
    | Except.ok dest =>
      if row.method == "GET" then Except.ok (ResolutionResponse.redirect dest)
      else Except.ok (ResolutionResponse.renderPost row.data dest)

/-- Simplified variant of the GET /l/:code delivery handler (src/app.js
lines 554-580): the outbound audit insert is awaited before resolution,
so a rejected insert aborts the handler and no response is delivered. -/
def resolveHandlerSimple (db : Db) (code : String)
    (outboundResult : Except Unit Unit) : Except Unit ResolutionResponse :=
  match outboundResult with
  | Except.error e => Except.error e
  | Except.ok _ =>
    match resolveShortlink db code with
    | none => Except.ok ResolutionResponse.notFound
    | some row =>
      if row.method == "GET" then Except.ok (ResolutionResponse.redirect row.destination)
      else Except.ok (ResolutionResponse.renderPost row.data row.destination)

/-! ## POST /login session issuance -/

/-- The session tables the login handler touches. -/
structure SessStore where
  sessions : List SessionRow
  saved : List SavedSessionRow
deriving DecidableEq, Repr

/-- Outcome of the session-issuance phase: the updated tables and the
cookie set on the response, if any. -/
structure LoginOutcome where
  store : SessStore
  cookieSet : Option String
deriving DecidableEq, Repr

/-- Session-issuance phase of POST /login after credential verification
(src/app.js lines 387-427, richer variant; the simplified variant differs
only in `validSession` ignoring the user match, which does not affect the
branch below because a present cookie already falsifies its condition).
`fresh` is the uuidv4() draw, `now` the insertion timestamp.  The guard is
the source's `if (!req.cookies.sessionId && !validSession)` verbatim. -/
def loginSessions (st : SessStore) (cookie : Option String) (uid : Nat)
    (fresh ua ip : String) (now : Nat) : LoginOutcome :=
  let validSession : Bool :=
    match cookie with
    | some sid =>
      match st.sessions.find? (fun s => s.id == sid) with
      | some cur => cur.user_id == uid
      | none => false
    | none => false
  if cookie.isNone && !validSession then
    let mine := st.sessions.filter (fun s => s.user_id == uid)
    let st1 : SessStore :=
      if mine.length == 5 then
        match pickMinSession mine with
        | some oldest =>
          { st with sessions := st.sessions.filter (fun s => !(s.user_id == uid && s.id == oldest.id)) }
        | none => st
      else st
    { store :=
        { sessions := st1.sessions ++ [⟨fresh, uid, ua, now⟩],
          saved := st1.saved ++ [⟨fresh, uid, ua, ip⟩] },
      cookieSet := some fresh }
  else
    { store := st, cookieSet := none }

/-! ## Claim theorems -/

/-- C1: for every GET /l/:code request whose context carries a recognized
active-session user object, the trust evaluator authorizes with method
USER and value the user's id without consulting the cookie or IP tiers
(the cookie and IP components of the context are universally quantified,
so the outcome is independent of them); in the richer variant this
additionally requires the user's member flag, the evaluation falling
through to the later tiers exactly as if no session user were present
when it is absent. -/
theorem c1_active_session_user_tier (db : Db) (u : UserRow) (cookie ip : Option String) :
    trustSimple db ⟨some u, cookie, ip⟩ = ⟨some ⟨"USER", MethodValue.num u.id, none⟩, false⟩ ∧
    (u.member = true →
      trustRich db ⟨some u, cookie, ip⟩
        = ⟨some ⟨"USER", MethodValue.num u.id, some u.id⟩, false⟩) ∧
    (u.member = false →
      trustRich db ⟨some u, cookie, ip⟩ = cookieIpTiersRich db cookie ip ∧
      trustRich db ⟨some u, cookie, ip⟩ = trustRich db ⟨none, cookie, ip⟩) := by
  refine ⟨rfl, ?_, ?_⟩
  · intro h
    simp [trustRich, h]
  · intro h
    exact ⟨by simp [trustRich, h], by simp [trustRich, h]⟩

/-- Witness for C1 at a concrete member user, cookie and IP. -/
theorem c1_active_session_user_tier_witness :
    ((⟨7, "a@x.test", true, "hash"⟩ : UserRow).member = true) ∧
    trustRich ⟨[], [], [], []⟩
        ⟨some ⟨7, "a@x.test", true, "hash"⟩, some "spoof", some "1.2.3.4"⟩
      = ⟨some ⟨"USER", MethodValue.num 7, some 7⟩, false⟩ :=
  ⟨rfl,
    (c1_active_session_user_tier ⟨[], [], [], []⟩ ⟨7, "a@x.test", true, "hash"⟩
      (some "spoof") (some "1.2.3.4")).2.1 rfl⟩

theorem joinedUserSession_eq_none (db : Db) (sid : String)
    (h : ∀ s ∈ db.sessions, s.id ≠ sid) : joinedUserSession db sid = none := by
  rw [joinedUserSession, List.findSome?_eq_none_iff]
  intro s hs
  simp [h s hs]

theorem sessionLookupSimple_eq_none (db : Db) (sid : String)
    (h : ∀ s ∈ db.sessions, s.id ≠ sid) : sessionLookupSimple db sid = none := by
  rw [sessionLookupSimple, List.find?_eq_none]
  intro s hs
  simp [h s hs]

/-- C2: for every GET /l/:code request with no active session presenting a
sessionId cookie that matches no existing session row, both variants clear
the cookie in the response and the decision is exactly the IP tier's
evaluation (one pass, no retry of the cookie lookup). -/
theorem c2_stale_cookie_cleared_falls_to_ip (db : Db) (sid : String) (ip : Option String)
    (h : ∀ s ∈ db.sessions, s.id ≠ sid) :
    trustRich db ⟨none, some sid, ip⟩ = ⟨ipTierRich db ip, true⟩ ∧
    trustSimple db ⟨none, some sid, ip⟩ = ⟨ipTierSimple db ip, true⟩ := by
  constructor
  · simp [trustRich, cookieIpTiersRich, joinedUserSession_eq_none db sid h]
  · simp [trustSimple, cookieIpTiersSimple, sessionLookupSimple_eq_none db sid h]

/-- Witness for C2: a cookie bound to no session row in a database holding
one session and one authorized IP. -/
theorem c2_stale_cookie_cleared_falls_to_ip_witness :
    ((⟨[⟨5, "b@x.test", true, "hash"⟩], [⟨"live", 5, "ua", 0⟩], [⟨5, "9.9.9.9"⟩],
        []⟩ : Db).sessions.all (fun s => !(s.id == "ghost"))) = true ∧
    trustRich ⟨[⟨5, "b@x.test", true, "hash"⟩], [⟨"live", 5, "ua", 0⟩], [⟨5, "9.9.9.9"⟩], []⟩
        ⟨none, some "ghost", some "9.9.9.9"⟩
      = ⟨ipTierRich ⟨[⟨5, "b@x.test", true, "hash"⟩], [⟨"live", 5, "ua", 0⟩], [⟨5, "9.9.9.9"⟩], []⟩
          (some "9.9.9.9"), true⟩ :=
  ⟨by decide,
    (c2_stale_cookie_cleared_falls_to_ip
      ⟨[⟨5, "b@x.test", true, "hash"⟩], [⟨"live", 5, "ua", 0⟩], [⟨5, "9.9.9.9"⟩], []⟩
      "ghost" (some "9.9.9.9") (by decide)).1⟩

/-- C3: shortlink resolution returns the not-found outcome exactly when no
stored row carries the requested code, and any returned row carries the
code, is stored, and has the greatest id among all stored rows with that
code (hence the result is a function of the database state). -/
theorem c3_resolver_picks_max_id (db : Db) (code : String) :
    (resolveShortlink db code = none ↔ ∀ r ∈ db.shortlinks, r.code ≠ code) ∧
    (∀ r, resolveShortlink db code = some r →
      r.code = code ∧ r ∈ db.shortlinks ∧
        ∀ r' ∈ db.shortlinks, r'.code = code → r'.id ≤ r.id) := by
  constructor
  · rw [resolveShortlink, pickMaxBy_eq_none_iff, List.filter_eq_nil_iff]
    constructor
    · intro h r hr
      have := h r hr
      simpa using this
    · intro h r hr
      simp [h r hr]
  · intro r h
    obtain ⟨hmem, hmax⟩ := pickMaxBy_spec _ _ _ h
    rw [List.mem_filter] at hmem
    refine ⟨by simpa using hmem.2, hmem.1, ?_⟩
    intro r' hr' hcode
    exact hmax r' (List.mem_filter.mpr ⟨hr', by simp [hcode]⟩)

/-- Witness for C3 on a database with two rows sharing a code: the max-id
row is returned and dominates the other matching row's id. -/
theorem c3_resolver_picks_max_id_witness :
    resolveShortlink
        ⟨[], [], [],
          [⟨1, "c1", "GET", none, "https://a.test", none⟩,
            ⟨2, "c1", "GET", none, "https://b.test", none⟩,
            ⟨3, "zz", "GET", none, "https://c.test", none⟩]⟩ "c1"
      = some ⟨2, "c1", "GET", none, "https://b.test", none⟩ ∧
    (⟨2, "c1", "GET", none, "https://b.test", none⟩ : ShortlinkRow)
      ∈ (⟨[], [], [],
          [⟨1, "c1", "GET", none, "https://a.test", none⟩,
            ⟨2, "c1", "GET", none, "https://b.test", none⟩,
            ⟨3, "zz", "GET", none, "https://c.test", none⟩]⟩ : Db).shortlinks ∧
    (⟨1, "c1", "GET", none, "https://a.test", none⟩ : ShortlinkRow).id
      ≤ (⟨2, "c1", "GET", none, "https://b.test", none⟩ : ShortlinkRow).id := by
  have h := (c3_resolver_picks_max_id
    ⟨[], [], [],
      [⟨1, "c1", "GET", none, "https://a.test", none⟩,
        ⟨2, "c1", "GET", none, "https://b.test", none⟩,
        ⟨3, "zz", "GET", none, "https://c.test", none⟩]⟩ "c1").2
    ⟨2, "c1", "GET", none, "https://b.test", none⟩ (by decide)
  exact ⟨by decide, h.2.1, h.2.2 _ (by decide) rfl⟩

theorem normalizeLinkbust_eq_filter (lbs : List String) :
    normalizeLinkbust lbs
      = (["RANDOM", "CACHEBUST", "CAPITALS"] : List String).filter
          (fun t => (lbs.map jsUpper).contains t) := by
  cases h1 : (lbs.map jsUpper).contains "RANDOM" <;>
    cases h2 : (lbs.map jsUpper).contains "CACHEBUST" <;>
      cases h3 : (lbs.map jsUpper).contains "CAPITALS"
  all_goals simp only [normalizeLinkbust, List.filter, h1, h2, h3]
  all_goals rfl

/-- C4: the stored linkbust list is the fixed priority sequence RANDOM,
CACHEBUST, CAPITALS restricted to the techniques present in the submitted
array (matched after uppercasing, duplicates collapsed into the single
priority slot, unrecognized names ignored), it is invariant under
permutations of the submitted array, and the technique list the resolution
handler iterates over for the stored row is exactly that sequence. -/
theorem c4_linkbust_priority_order (lbs : List String) :
    (normalizeLinkbust lbs).Sublist (["RANDOM", "CACHEBUST", "CAPITALS"] : List String) ∧
    (∀ t, t ∈ normalizeLinkbust lbs ↔
      t ∈ (["RANDOM", "CACHEBUST", "CAPITALS"] : List String) ∧ t ∈ lbs.map jsUpper) ∧
    (∀ lbs₂ : List String, lbs₂.Perm lbs → normalizeLinkbust lbs₂ = normalizeLinkbust lbs) ∧
    resolutionTechs (some (joinPipe (normalizeLinkbust lbs))) = normalizeLinkbust lbs := by
  refine ⟨?_, ?_, ?_, ?_⟩
  · rw [normalizeLinkbust_eq_filter]
    exact List.filter_sublist _
  · intro t
    rw [normalizeLinkbust_eq_filter, List.mem_filter]
    simp
  · intro lbs₂ hperm
    rw [normalizeLinkbust_eq_filter, normalizeLinkbust_eq_filter]
    refine List.filter_congr ?_
    intro t _
    have hp : (lbs₂.map jsUpper).Perm (lbs.map jsUpper) := hperm.map _
    cases hc : (lbs.map jsUpper).contains t with
    | true =>
      have : t ∈ lbs.map jsUpper := by simpa using hc
      simpa using hp.mem_iff.mpr this
    | false =>
      have : t ∉ lbs.map jsUpper := by simpa using hc
      simpa using fun hmem => this (hp.mem_iff.mp hmem)
  · cases h1 : (lbs.map jsUpper).contains "RANDOM" <;>
      cases h2 : (lbs.map jsUpper).contains "CACHEBUST" <;>
        cases h3 : (lbs.map jsUpper).contains "CAPITALS"
    all_goals simp only [normalizeLinkbust, h1, h2, h3]
    all_goals decide

/-- Witness for C4: the spec's example submission in both orders, with the
resulting stored order RANDOM then CAPITALS. -/
theorem c4_linkbust_priority_order_witness :
    (["RANDOM", "capitals"] : List String).Perm ["capitals", "RANDOM"] ∧
    normalizeLinkbust ["RANDOM", "capitals"] = normalizeLinkbust ["capitals", "RANDOM"] ∧
    normalizeLinkbust ["capitals", "RANDOM"] = ["RANDOM", "CAPITALS"] := by
  have hp : (["RANDOM", "capitals"] : List String).Perm ["capitals", "RANDOM"] :=
    List.Perm.swap "capitals" "RANDOM" []
  exact ⟨hp,
    (c4_linkbust_priority_order ["capitals", "RANDOM"]).2.2.1 ["RANDOM", "capitals"] hp,
    by decide⟩

/-- Scan for an occurrence of the `%RAN%` pattern anywhere in a character
list (used to state that a destination still carries the placeholder). -/
def containsRan : List Char → Bool
  | [] => false
  | c :: cs => ranPat.isPrefixOf (c :: cs) || containsRan cs

/-- C5 (code-bug evidence): on a destination carrying three `%RAN%`
placeholders (four split pieces) the RANDOM transform replaces only the
first two — the loop bound `destination.split("%RAN%").length` shrinks as
the mutated destination loses occurrences, so the loop exits with a
literal `%RAN%` left in the delivered URL, against the documented
replace-every-occurrence behavior; the no-op half of the claim does hold,
as the final conjunct shows on a placeholder-free destination. -/
theorem c5_random_loop_leaves_third_placeholder :
    (splitRanL ("a%RAN%b%RAN%c%RAN%d".data)).length = 4 ∧
    randomTransform
        (fun k => if k == 0 then "AAAAA" else if k == 1 then "BBBBB" else "CCCCC")
        "a%RAN%b%RAN%c%RAN%d"
      = "aAAAAAbBBBBBc%RAN%d" ∧
    containsRan ("aAAAAAbBBBBBc%RAN%d".data) = true ∧
    randomTransform (fun _ => "AAAAA") "https://x.test/path" = "https://x.test/path" :=
  ⟨by decide, by decide, by decide, by decide⟩

/-- C6 counterexample: a creation request whose method is `get` — which the
method validation accepts case-insensitively as GET — together with a
non-empty data object is *not* rejected: the data prohibition compares
`req.body.method === "GET"` case-sensitively, so the insert goes through
with the uppercased method and the data payload. -/
theorem c6_lowercase_get_with_data_accepted :
    jsUpper "get" = "GET" ∧
    createShortlink "ab1cd"
        ⟨none, some "get", some "https://example.com", some (DataVal.obj [("k", "v")]), none⟩
      = CreateResult.created
          ⟨"ab1cd", "GET", some (DataVal.obj [("k", "v")]), "https://example.com", none⟩
          "ab1cd" :=
  ⟨by decide, by decide⟩

/-- C6 (amended): for every creation request whose method field is exactly
the uppercase string GET, whose destination is present, and whose data
field is non-empty, the response is the 400 with the form-data error
message (a `badRequest` outcome carries no insert, so no shortlink row is
stored). -/
theorem c6_exact_get_with_data_rejected (gen : String) (b : CreateBody)
    (hm : b.method = some "GET") (hdest : strTruthy b.destination = true)
    (hdata : ∃ d, b.data = some d) :
    createShortlink gen b
      = CreateResult.badRequest "A method of `GET` cannot contain form-data." := by
  obtain ⟨d, hd⟩ := hdata
  simp only [createShortlink, hm, hd, hdest]
  rfl

/-- Witness for C6 (amended) at a concrete request body. -/
theorem c6_exact_get_with_data_rejected_witness :
    ((⟨none, some "GET", some "https://example.com", some (DataVal.obj [("k", "v")]),
        none⟩ : CreateBody).method = some "GET") ∧
    strTruthy (some "https://example.com") = true ∧
    createShortlink "zzzzz"
        ⟨none, some "GET", some "https://example.com", some (DataVal.obj [("k", "v")]), none⟩
      = CreateResult.badRequest "A method of `GET` cannot contain form-data." :=
  ⟨rfl, by decide,
    c6_exact_get_with_data_rejected "zzzzz"
      ⟨none, some "GET", some "https://example.com", some (DataVal.obj [("k", "v")]), none⟩
      rfl (by decide) ⟨DataVal.obj [("k", "v")], rfl⟩⟩

/-- C7 (code-bug evidence): the issuance guard is
`if (!req.cookies.sessionId && !validSession)`, so a presented cookie that
matches no session row (first conjunct) suppresses session creation
entirely: the tables are unchanged and no cookie is set, where the claim
requires a fresh session insert, a saved_sessions mirror and a cookie.
The last conjunct contrasts the same state with no cookie, where the
insert, mirror and cookie do happen. -/
theorem c7_stale_cookie_suppresses_issuance :
    ((⟨[⟨"aaa", 1, "ua", 0⟩], []⟩ : SessStore).sessions.all
      (fun s => !(s.id == "zzz"))) = true ∧
    loginSessions ⟨[⟨"aaa", 1, "ua", 0⟩], []⟩ (some "zzz") 1 "fresh" "ua" "1.2.3.4" 9
      = ⟨⟨[⟨"aaa", 1, "ua", 0⟩], []⟩, none⟩ ∧
    loginSessions ⟨[⟨"aaa", 1, "ua", 0⟩], []⟩ none 1 "fresh" "ua" "1.2.3.4" 9
      = ⟨⟨[⟨"aaa", 1, "ua", 0⟩, ⟨"fresh", 1, "ua", 9⟩], [⟨"fresh", 1, "ua", "1.2.3.4"⟩]⟩,
          some "fresh"⟩ :=
  ⟨by decide, by decide, by decide⟩

theorem length_filter_and_not_lt {α : Type} (p q : α → Bool) (x : α) :
    ∀ l : List α, x ∈ l → p x = true → q x = true →
      (l.filter (fun a => p a && !(q a))).length < (l.filter p).length := by
  intro l
  induction l with
  | nil => intro hx; exact absurd hx (List.not_mem_nil x)
  | cons y ys ih =>
    intro hx hp hq
    rcases List.mem_cons.mp hx with h1 | h1
    · subst h1
      have hmono : (ys.filter (fun a => p a && !(q a))).length ≤ (ys.filter p).length := by
        rw [← List.countP_eq_length_filter, ← List.countP_eq_length_filter]
        refine List.countP_mono_left ?_
        intro a _ ha
        exact (Bool.and_eq_true _ _ ▸ ha).1
      simp [List.filter_cons, hp, hq]
      omega
    · cases hpy : p y with
      | false =>
        have hlt := ih h1 hp hq
        simp [List.filter_cons, hpy]
        omega
      | true =>
        have hlt := ih h1 hp hq
        cases hqy : q y with
        | false =>
          simp [List.filter_cons, hpy, hqy]
          omega
        | true =>
          simp [List.filter_cons, hpy, hqy]
          omega

theorem filter_id_match_eq_single (uid : Nat) (m : SessionRow) :
    ∀ l : List SessionRow, (l.map (fun s => s.id)).Nodup → m ∈ l →
      m.user_id = uid →
      l.filter (fun s => s.user_id == uid && s.id == m.id) = [m] := by
  intro l
  induction l with
  | nil => intro _ hm; exact absurd hm (List.not_mem_nil m)
  | cons y ys ih =>
    intro hnd hm hmu
    have hnd' : (ys.map (fun s => s.id)).Nodup := (List.nodup_cons.mp hnd).2
    have hyid : y.id ∉ ys.map (fun s => s.id) := (List.nodup_cons.mp hnd).1
    rcases List.mem_cons.mp hm with h1 | h1
    · subst h1
      have hrest : ys.filter (fun s => s.user_id == uid && s.id == m.id) = [] := by
        rw [List.filter_eq_nil_iff]
        intro s hs hps
        have : s.id = m.id := by
          have := (Bool.and_eq_true _ _ ▸ hps).2
          simpa using this
        exact hyid (this ▸ List.mem_map_of_mem (fun s => s.id) hs)
      simp only [List.filter_cons, hmu, hrest]
      simp
    · have hym : y.id ≠ m.id := by
        intro he
        exact hyid (he ▸ List.mem_map_of_mem (fun s => s.id) h1)
      have hpy : (y.user_id == uid && y.id == m.id) = false := by
        cases h2 : (y.id == m.id) with
        | false => simp [h2]
        | true => exact absurd (by simpa using h2) hym
      simp only [List.filter_cons, hpy, if_false]
      exact ih hnd' h1 hmu

theorem loginSessions_some_cookie (st : SessStore) (sid : String) (uid : Nat)
    (fresh ua ip : String) (now : Nat) :
    loginSessions st (some sid) uid fresh ua ip now = ⟨st, none⟩ := by
  simp [loginSessions]

theorem loginSessions_insert_noevict (st : SessStore) (uid : Nat)
    (fresh ua ip : String) (now : Nat)
    (hlen : (((st.sessions.filter (fun s => s.user_id == uid)).length == 5) = false)) :
    loginSessions st none uid fresh ua ip now
      = ⟨⟨st.sessions ++ [⟨fresh, uid, ua, now⟩], st.saved ++ [⟨fresh, uid, ua, ip⟩]⟩,
          some fresh⟩ := by
  simp [loginSessions, hlen]

theorem loginSessions_insert_evict (st : SessStore) (uid : Nat)
    (fresh ua ip : String) (now : Nat) (m : SessionRow)
    (hlen : (((st.sessions.filter (fun s => s.user_id == uid)).length == 5) = true))
    (hpick : pickMinSession (st.sessions.filter (fun s => s.user_id == uid)) = some m) :
    loginSessions st none uid fresh ua ip now
      = ⟨⟨st.sessions.filter (fun s => !(s.user_id == uid && s.id == m.id))
            ++ [⟨fresh, uid, ua, now⟩],
          st.saved ++ [⟨fresh, uid, ua, ip⟩]⟩,
          some fresh⟩ := by
  simp [loginSessions, hlen, hpick]

/-- C8 counterexample: user 1 holds five sessions whose creation order
(created_at 0..4) is opposite to the binary order of their random ids
("e" first-created, "a" last-created).  A sixth login (no cookie) evicts
the row ordered first by `orderBy("id", "ASC")` — the *newest* session
"a" — while the oldest, first-created session "e" survives, contradicting
the claim that the user's oldest (first-created) session is deleted. -/
theorem c8_counterexample_first_created_survives :
    ((loginSessions
        ⟨[⟨"e", 1, "ua", 0⟩, ⟨"d", 1, "ua", 1⟩, ⟨"c", 1, "ua", 2⟩, ⟨"b", 1, "ua", 3⟩,
          ⟨"a", 1, "ua", 4⟩], []⟩
        none 1 "f" "ua" "1.2.3.4" 9).store.sessions.any
      (fun s => s.id == "e" && s.created_at == 0)) = true ∧
    ((loginSessions
        ⟨[⟨"e", 1, "ua", 0⟩, ⟨"d", 1, "ua", 1⟩, ⟨"c", 1, "ua", 2⟩, ⟨"b", 1, "ua", 3⟩,
          ⟨"a", 1, "ua", 4⟩], []⟩
        none 1 "f" "ua" "1.2.3.4" 9).store.sessions.all
      (fun s => !(s.id == "a"))) = true ∧
    (([⟨"e", 1, "ua", 0⟩, ⟨"d", 1, "ua", 1⟩, ⟨"c", 1, "ua", 2⟩, ⟨"b", 1, "ua", 3⟩,
        ⟨"a", 1, "ua", 4⟩] : List SessionRow).any
      (fun s => s.id == "a" && s.created_at == 4)) = true ∧
    (([⟨"e", 1, "ua", 0⟩, ⟨"d", 1, "ua", 1⟩, ⟨"c", 1, "ua", 2⟩, ⟨"b", 1, "ua", 3⟩,
        ⟨"a", 1, "ua", 4⟩] : List SessionRow).filter (fun s => s.user_id == 1)).length = 5 :=
  ⟨by decide, by decide, by decide, by decide⟩

/-- C8 (amended): the per-user five-session cap is preserved by every
login; a login with no cookie finding exactly five sessions deletes
exactly the user's session with the least id in binary string order (the
first-created session only when id order happens to agree with creation
order) before appending the fresh one; and saved_sessions rows are never
removed — the table only grows. -/
theorem c8_session_cap_and_min_id_eviction (st : SessStore) (cookie : Option String)
    (uid : Nat) (fresh ua ip : String) (now : Nat) :
    (∀ u' : Nat,
      (st.sessions.filter (fun s => s.user_id == u')).length ≤ 5 →
      ((loginSessions st cookie uid fresh ua ip now).store.sessions.filter
          (fun s => s.user_id == u')).length ≤ 5) ∧
    (∀ m : SessionRow,
      cookie = none →
      (st.sessions.map (fun s => s.id)).Nodup →
      (st.sessions.filter (fun s => s.user_id == uid)).length = 5 →
      pickMinSession (st.sessions.filter (fun s => s.user_id == uid)) = some m →
      (loginSessions st cookie uid fresh ua ip now).store.sessions
          = st.sessions.filter (fun s => !(s.user_id == uid && s.id == m.id))
              ++ [⟨fresh, uid, ua, now⟩] ∧
        st.sessions.filter (fun s => s.user_id == uid && s.id == m.id) = [m] ∧
        (∀ s ∈ st.sessions, s.user_id = uid → lexLt s.id.data m.id.data = false)) ∧
    (∀ r ∈ st.saved, r ∈ (loginSessions st cookie uid fresh ua ip now).store.saved) := by
  refine ⟨?_, ?_, ?_⟩
  · -- per-user cap preservation
    intro u' hpre
    cases cookie with
    | some sid =>
      rw [loginSessions_some_cookie]
      exact hpre
    | none =>
      cases h5 : ((st.sessions.filter (fun s => s.user_id == uid)).length == 5) with
      | false =>
        rw [loginSessions_insert_noevict st uid fresh ua ip now h5]
        rw [List.filter_append, List.length_append]
        by_cases hu : u' = uid
        · subst hu
          have hne : (st.sessions.filter (fun s => s.user_id == u')).length ≠ 5 := by
            simpa using h5
          have : (List.filter (fun s => s.user_id == u')
              [(⟨fresh, u', ua, now⟩ : SessionRow)]).length ≤ 1 :=
            List.length_filter_le _ _
          omega
        · have hnew : (List.filter (fun s => s.user_id == u')
              [(⟨fresh, uid, ua, now⟩ : SessionRow)]) = [] := by
            simp [List.filter_cons]
            exact fun h => hu h.symm
          rw [hnew]
          simpa using hpre
      | true =>
        cases hpick : pickMinSession (st.sessions.filter (fun s => s.user_id == uid)) with
        | none =>
          exfalso
          have hnil := (pickMinSession_eq_none_iff _).mp hpick
          rw [hnil] at h5
          simp at h5
        | some m =>
          rw [loginSessions_insert_evict st uid fresh ua ip now m h5 hpick]
          rw [List.filter_append, List.length_append]
          obtain ⟨hm_mem, _⟩ := pickMinSession_spec _ _ hpick
          have hm1 := List.mem_filter.mp hm_mem
          by_cases hu : u' = uid
          · subst hu
            have hlt := length_filter_and_not_lt
              (fun s => s.user_id == u')
              (fun s => s.user_id == u' && s.id == m.id)
              m st.sessions hm1.1 hm1.2 (by simp [hm1.2])
            have h5' : (st.sessions.filter (fun s => s.user_id == u')).length = 5 := by
              simpa using h5
            have hlt2 : (st.sessions.filter
                  (fun s => (s.user_id == u') && !(s.user_id == u' && s.id == m.id))).length
                < (st.sessions.filter (fun s => s.user_id == u')).length := hlt
            have hcomp : (st.sessions.filter
                  (fun s => !(s.user_id == u' && s.id == m.id))).filter
                    (fun s => s.user_id == u')
                = st.sessions.filter
                    (fun s => (s.user_id == u') && !(s.user_id == u' && s.id == m.id)) :=
              List.filter_filter _ _
            have hone : (List.filter (fun s => s.user_id == u')
                [(⟨fresh, u', ua, now⟩ : SessionRow)]).length ≤ 1 :=
              List.length_filter_le _ _
            rw [hcomp]
            omega
          · have hnew : (List.filter (fun s => s.user_id == u')
                [(⟨fresh, uid, ua, now⟩ : SessionRow)]) = [] := by
              simp [List.filter_cons]
              exact fun h => hu h.symm
            rw [hnew]
            have hsub : List.Sublist
                ((st.sessions.filter
                  (fun s => !(s.user_id == uid && s.id == m.id))).filter
                    (fun s => s.user_id == u'))
                (st.sessions.filter (fun s => s.user_id == u')) :=
              List.Sublist.filter _ (List.filter_sublist _)
            have := hsub.length_le
            simpa using le_trans (by simpa using this) hpre
      -- end cookie none
  · -- eviction removes exactly the minimal-id row
    intro m hc hnodup hlen hpick
    subst hc
    have h5 : ((st.sessions.filter (fun s => s.user_id == uid)).length == 5) = true := by
      simp [hlen]
    obtain ⟨hm_mem, hmin⟩ := pickMinSession_spec _ _ hpick
    have hm1 := List.mem_filter.mp hm_mem
    refine ⟨?_, ?_, ?_⟩
    · rw [loginSessions_insert_evict st uid fresh ua ip now m h5 hpick]
    · exact filter_id_match_eq_single uid m st.sessions hnodup hm1.1 (by simpa using hm1.2)
    · intro s hs hsu
      exact hmin s (List.mem_filter.mpr ⟨hs, by simp [hsu]⟩)
  · -- saved_sessions rows are never removed
    intro r hr
    cases cookie with
    | some sid =>
      rw [loginSessions_some_cookie]
      exact hr
    | none =>
      cases h5 : ((st.sessions.filter (fun s => s.user_id == uid)).length == 5) with
      | false =>
        rw [loginSessions_insert_noevict st uid fresh ua ip now h5]
        exact List.mem_append_left _ hr
      | true =>
        cases hpick : pickMinSession (st.sessions.filter (fun s => s.user_id == uid)) with
        | none =>
          exfalso
          have hnil := (pickMinSession_eq_none_iff _).mp hpick
          rw [hnil] at h5
          simp at h5
        | some m =>
          rw [loginSessions_insert_evict st uid fresh ua ip now m h5 hpick]
          exact List.mem_append_left _ hr

/-- Witness for C8 (amended) on the five-session state whose id order is
opposite to creation order. -/
theorem c8_session_cap_and_min_id_eviction_witness :
    (([⟨"e", 1, "ua", 0⟩, ⟨"d", 1, "ua", 1⟩, ⟨"c", 1, "ua", 2⟩, ⟨"b", 1, "ua", 3⟩,
        ⟨"a", 1, "ua", 4⟩] : List SessionRow).map (fun s => s.id)).Nodup ∧
    (([⟨"e", 1, "ua", 0⟩, ⟨"d", 1, "ua", 1⟩, ⟨"c", 1, "ua", 2⟩, ⟨"b", 1, "ua", 3⟩,
        ⟨"a", 1, "ua", 4⟩] : List SessionRow).filter (fun s => s.user_id == 1)).length = 5 ∧
    pickMinSession (([⟨"e", 1, "ua", 0⟩, ⟨"d", 1, "ua", 1⟩, ⟨"c", 1, "ua", 2⟩,
        ⟨"b", 1, "ua", 3⟩, ⟨"a", 1, "ua", 4⟩] : List SessionRow).filter
      (fun s => s.user_id == 1)) = some ⟨"a", 1, "ua", 4⟩ ∧
    (loginSessions
        ⟨[⟨"e", 1, "ua", 0⟩, ⟨"d", 1, "ua", 1⟩, ⟨"c", 1, "ua", 2⟩, ⟨"b", 1, "ua", 3⟩,
          ⟨"a", 1, "ua", 4⟩], []⟩
        none 1 "f" "ua" "1.2.3.4" 9).store.sessions
      = ([⟨"e", 1, "ua", 0⟩, ⟨"d", 1, "ua", 1⟩, ⟨"c", 1, "ua", 2⟩, ⟨"b", 1, "ua", 3⟩,
          ⟨"a", 1, "ua", 4⟩] : List SessionRow).filter
            (fun s => !(s.user_id == 1 && s.id == "a")) ++ [⟨"f", 1, "ua", 9⟩] :=
  ⟨by decide, by decide, by decide,
    ((c8_session_cap_and_min_id_eviction
        ⟨[⟨"e", 1, "ua", 0⟩, ⟨"d", 1, "ua", 1⟩, ⟨"c", 1, "ua", 2⟩, ⟨"b", 1, "ua", 3⟩,
          ⟨"a", 1, "ua", 4⟩], []⟩
        none 1 "f" "ua" "1.2.3.4" 9).2.1
      ⟨"a", 1, "ua", 4⟩ rfl (by decide) (by decide) (by decide)).1⟩

theorem applyTech_random_eq {UrlT : Type} (parse : String → Option UrlT)
    (appendParam : UrlT → String → String → String) (rng : Nat → String)
    (coins : Nat → Bool) (dest : String) :
    applyTech parse appendParam rng coins "RANDOM" dest
      = Except.ok (randomTransform rng dest) :=
  rfl

theorem applyTech_cachebust_none {UrlT : Type} (parse : String → Option UrlT)
    (appendParam : UrlT → String → String → String) (rng : Nat → String)
    (coins : Nat → Bool) (dest : String) (h : parse dest = none) :
    applyTech parse appendParam rng coins "CACHEBUST" dest = Except.error () := by
  simp only [applyTech]
  rw [if_neg (by decide), if_pos (by decide), h]

/-- C10: for every stored shortlink whose normalized linkbust list
contains CACHEBUST and whose destination — after the RANDOM replacement,
when RANDOM is also stored — is rejected by the URL parser, the transform
loop aborts with the `new URL` throw instead of producing a destination;
and creation accepts any non-empty destination string verbatim (no URL
validation), so such records are storable.  The URL library is abstracted
as the `parse`/`appendParam` parameters, `parse` returning `none` exactly
when the constructor throws. -/
theorem c10_cachebust_throw_on_unparseable_destination {UrlT : Type}
    (parse : String → Option UrlT) (appendParam : UrlT → String → String → String)
    (rng : Nat → Nat → String) (coins : Nat → Nat → Bool)
    (lbs : List String) (dest gen : String)
    (hdest : dest ≠ "")
    (hC : "CACHEBUST" ∈ normalizeLinkbust lbs)
    (hparse : parse (if "RANDOM" ∈ normalizeLinkbust lbs
        then randomTransform (rng 0) dest else dest) = none) :
    applyTechs parse appendParam rng coins (normalizeLinkbust lbs) 0 dest
      = Except.error () ∧
    createShortlink gen ⟨none, some "GET", some dest, none, some (LinkbustVal.arr lbs)⟩
      = CreateResult.created
          ⟨gen, "GET", none, dest, some (joinPipe (normalizeLinkbust lbs))⟩ gen := by
  constructor
  · cases h1 : (lbs.map jsUpper).contains "RANDOM" <;>
      cases h2 : (lbs.map jsUpper).contains "CACHEBUST" <;>
        cases h3 : (lbs.map jsUpper).contains "CAPITALS"
    all_goals simp only [normalizeLinkbust, h1, h2, h3] at hC hparse ⊢
    all_goals simp only [if_true, if_false, List.nil_append, List.append_nil,
      List.cons_append, List.append_assoc] at hC hparse ⊢
    · simp at hC
    · simp at hC
    · -- ["CACHEBUST"]
      rw [if_neg (by decide)] at hparse
      simp only [applyTechs]
      rw [applyTech_cachebust_none parse appendParam _ _ _ hparse]
    · -- ["CACHEBUST", "CAPITALS"]
      rw [if_neg (by decide)] at hparse
      simp only [applyTechs]
      rw [applyTech_cachebust_none parse appendParam _ _ _ hparse]
    · simp at hC
    · simp at hC
    · -- ["RANDOM", "CACHEBUST"]
      rw [if_pos (by decide)] at hparse
      simp only [applyTechs, applyTech_random_eq]
      rw [applyTech_cachebust_none parse appendParam _ _ _ hparse]
    · -- ["RANDOM", "CACHEBUST", "CAPITALS"]
      rw [if_pos (by decide)] at hparse
      simp only [applyTechs, applyTech_random_eq]
      rw [applyTech_cachebust_none parse appendParam _ _ _ hparse]
  · have hbeq : (dest == "") = false := by simpa using hdest
    have hm1 : ((("GET" : String) == "") = false) := by decide
    have hm2 : (jsUpper "GET" == "GET" || jsUpper "GET" == "POST") = true := by decide
    have hup : jsUpper "GET" = "GET" := by decide
    simp only [createShortlink, hm1, hm2, strTruthy, hbeq, Bool.not_true, Bool.not_false,
      Bool.false_eq_true, if_false, if_true, finishCreate, Option.getD_some, hup]
    rw [if_neg (by decide)]

/-- Witness for C10: a total-failure parser (every string unparseable), a
lowercase `cachebust` submission and the destination `nota url`. -/
theorem c10_cachebust_throw_on_unparseable_destination_witness :
    ("nota url" : String) ≠ "" ∧
    "CACHEBUST" ∈ normalizeLinkbust ["cachebust"] ∧
    ((fun _ => (none : Option Unit))
        (if "RANDOM" ∈ normalizeLinkbust ["cachebust"]
          then randomTransform ((fun _ _ => "AAAAA") 0) "nota url" else "nota url")
      = none) ∧
    applyTechs (fun _ => (none : Option Unit)) (fun _ _ _ => "") (fun _ _ => "AAAAA")
        (fun _ _ => true) (normalizeLinkbust ["cachebust"]) 0 "nota url"
      = Except.error () ∧
    createShortlink "ab1cd"
        ⟨none, some "GET", some "nota url", none, some (LinkbustVal.arr ["cachebust"])⟩
      = CreateResult.created
          ⟨"ab1cd", "GET", none, "nota url", some (joinPipe (normalizeLinkbust ["cachebust"]))⟩
          "ab1cd" := by
  have h := c10_cachebust_throw_on_unparseable_destination
    (fun _ => (none : Option Unit)) (fun _ _ _ => "") (fun _ _ => "AAAAA") (fun _ _ => true)
    ["cachebust"] "nota url" "ab1cd" (by decide) (by decide) rfl
  exact ⟨by decide, by decide, rfl, h.1, h.2⟩

/-- C9 counterexample: in the simplified variant the outbound audit insert
is awaited on the response path (src/app.js line 557), so its failure
fails the user-facing response: on a database holding a matching GET
shortlink, a rejected insert aborts the request with an error, while the
same request with the insert succeeding delivers the redirect — the audit
write blocks and fails the response, against the claim's
never-blocks-or-fails and dispatched-without-await assertions. -/
theorem c9_counterexample_awaited_audit_failure_blocks :
    resolveHandlerSimple ⟨[], [], [], [⟨1, "go", "GET", none, "https://ok.test", none⟩]⟩
        "go" (Except.error ()) = Except.error () ∧
    resolveHandlerSimple ⟨[], [], [], [⟨1, "go", "GET", none, "https://ok.test", none⟩]⟩
        "go" (Except.ok ()) = Except.ok (ResolutionResponse.redirect "https://ok.test") :=
  ⟨rfl, rfl⟩

/-- C9 (amended): in the richer variant both audit inserts — the outbound
attempt row and the dynamic_urls row — are dispatched without being
awaited on the response path, so the user-facing response is identical
for every combination of outcomes of those inserts and an audit-write
failure never blocks or fails the response; in the simplified variant the
outbound insert is awaited on the synchronous response path, its
rejection aborts the request with an error instead of a response, and it
is the only failure point of that handler: with the insert succeeding a
response is always delivered. -/
theorem c9_audit_write_response_independence {UrlT : Type}
    (parse : String → Option UrlT) (appendParam : UrlT → String → String → String)
    (rng : Nat → Nat → String) (coins : Nat → Nat → Bool)
    (db : Db) (code : String) (o o' d d' : Except Unit Unit) :
    resolveHandlerRich parse appendParam rng coins db code o d
      = resolveHandlerRich parse appendParam rng coins db code o' d' ∧
    resolveHandlerSimple db code (Except.error ()) = Except.error () ∧
    (∃ r : ResolutionResponse,
      resolveHandlerSimple db code (Except.ok ()) = Except.ok r) := by
  refine ⟨rfl, rfl, ?_⟩
  cases hres : resolveShortlink db code with
  | none => exact ⟨ResolutionResponse.notFound, by simp [resolveHandlerSimple, hres]⟩
  | some row =>
    cases hm : (row.method == "GET") with
    | true =>
      exact ⟨ResolutionResponse.redirect row.destination,
        by simp [resolveHandlerSimple, hres, hm]⟩
    | false =>
      exact ⟨ResolutionResponse.renderPost row.data row.destination,
        by simp [resolveHandlerSimple, hres, hm]⟩

/-- Witness for C9 (amended): a concrete richer-variant request whose
response is unchanged between both audit inserts failing and both
succeeding. -/
theorem c9_audit_write_response_independence_witness :
    resolveHandlerRich (fun _ => (none : Option Unit)) (fun _ _ _ => "")
        (fun _ _ => "AAAAA") (fun _ _ => true)
        ⟨[], [], [], [⟨1, "go", "GET", none, "https://ok.test", none⟩]⟩ "go"
        (Except.error ()) (Except.error ())
      = resolveHandlerRich (fun _ => (none : Option Unit)) (fun _ _ _ => "")
        (fun _ _ => "AAAAA") (fun _ _ => true)
        ⟨[], [], [], [⟨1, "go", "GET", none, "https://ok.test", none⟩]⟩ "go"
        (Except.ok ()) (Except.ok ()) :=
  (c9_audit_write_response_independence (fun _ => (none : Option Unit)) (fun _ _ _ => "")
    (fun _ _ => "AAAAA") (fun _ _ => true)
    ⟨[], [], [], [⟨1, "go", "GET", none, "https://ok.test", none⟩]⟩ "go"
    (Except.error ()) (Except.ok ()) (Except.error ()) (Except.ok ())).1
